import Mathlib

/-!
Verification of the response-normalization and streaming-emulation core of
an OpenAI-compatible chat gateway (source: `api_server.py`).

The Python source is shallowly embedded: the duck-typed backend reply becomes
an inductive sum of the shapes the normalizer inspects, Python `str.split()`
and `" ".join` become executable Lean functions over character lists, the
chunking loop becomes a fuel-indexed recursion (fuel = word count, as the loop
steps through `range(0, len(words), 10)`), and the streaming generator becomes
a function producing the finite list of frames it yields.  The backend call
`client.chat` is a parameter of type `String → Except String BackendReply`:
`.error msg` models the call raising an exception with message `msg`.
-/

namespace ApiServer

/-- Pydantic `Message` model: `{role, content}` (`api_server.py` lines 11-13). -/
structure Message where
  role : String
  content : String
deriving DecidableEq, Repr

/-- The whitespace characters recognized by Python `str.split()` for ASCII
input: space, tab, newline, carriage return, vertical tab, form feed. -/
def pyIsSpace (c : Char) : Bool :=
  c = ' ' || c = '\t' || c = '\n' || c = '\r' || c = Char.ofNat 11 || c = Char.ofNat 12

/-- Accumulator-passing core of Python `str.split()` with no separator
argument: runs of whitespace separate words, and empty fragments are never
produced (so leading/trailing whitespace yields no empty words). -/
def splitWordsAux : List Char → List Char → List String
  | [], acc => if acc = [] then [] else [String.mk acc.reverse]
  | c :: cs, acc =>
    if pyIsSpace c then
      (if acc = [] then [] else [String.mk acc.reverse]) ++ splitWordsAux cs []
    else
      splitWordsAux cs (c :: acc)

/-- Python `response.split()` (`api_server.py` line 73). -/
def pySplit (s : String) : List String :=
  splitWordsAux s.data []

/-- Python `" ".join(chunk_words)` (`api_server.py` line 77). -/
def joinSpace : List String → String
  | [] => ""
  | [w] => w
  | w :: ws => w ++ " " ++ joinSpace ws

/-- The duck-typed shapes of `raw_response` that the normalizer at
`api_server.py` lines 60-69 distinguishes: a plain string, an object that may
expose a `content` attribute (with `r` its generic textual representation), a
mapping, an ordered sequence, `None`, or a number. -/
inductive BackendReply where
  | pstr (s : String)
  | pobj (content : Option String) (r : String)
  | pdict (entries : List (String × String))
  | plist (elems : List BackendReply)
  | pnone
  | pint (n : Int)
deriving Repr

/-- The single-quote character used by Python `repr` of strings. -/
def pyQuote : String := String.singleton (Char.ofNat 39)

/-- Python `repr` of one dict entry: `'key': 'value'`. -/
def reprEntry (p : String × String) : String :=
  pyQuote ++ p.1 ++ pyQuote ++ ": " ++ pyQuote ++ p.2 ++ pyQuote

/-- Python `repr` of the comma-separated inside of a dict display. -/
def reprEntries : List (String × String) → String
  | [] => ""
  | [p] => reprEntry p
  | p :: ps => reprEntry p ++ ", " ++ reprEntries ps

mutual

/-- Python `repr` of a `BackendReply` value (used inside container displays). -/
def pyRepr : BackendReply → String
  | .pstr s => pyQuote ++ s ++ pyQuote
  | .pobj _ r => r
  | .pdict es => "\x7b" ++ reprEntries es ++ "\x7d"
  | .plist es => "[" ++ pyReprList es ++ "]"
  | .pnone => "None"
  | .pint n => toString n

/-- Python `repr` of the comma-separated inside of a list display. -/
def pyReprList : List BackendReply → String
  | [] => ""
  | [x] => pyRepr x
  | x :: xs => pyRepr x ++ ", " ++ pyReprList xs

end

/-- Python `str(v)`: identity on strings, `repr`-based display otherwise. -/
def pyStr : BackendReply → String
  | .pstr s => s
  | v => pyRepr v

/-- The response normalizer, translated from the `if`/`elif` chain at
`api_server.py` lines 60-69 (identical chain at lines 160-169):
`isinstance(raw, str)` → unchanged; `hasattr(raw, 'content')` → the attribute;
`isinstance(raw, dict) and 'content' in raw` → the value at that key;
`isinstance(raw, list) and len(raw) > 0` → `str(raw[0])` (the source's
`"No response"` arm is dead code, guarded by `len(raw) > 0`);
otherwise `str(raw)`. -/
def normalizeResponse : BackendReply → String
  | .pstr s => s
  | .pobj (some c) _ => c
  | .pobj none r => pyStr (.pobj none r)
  | .pdict es =>
    match es.lookup "content" with
    | some v => v
    | none => pyStr (.pdict es)
  | .plist (x :: _) => pyStr x
  | .plist [] => pyStr (.plist [])
  | .pnone => pyStr .pnone
  | .pint n => pyStr (.pint n)

/-- One round of the chunking loop at `api_server.py` lines 75-80: take the
next group of `chunk_size = 10` words, join with single spaces, and append one
trailing space exactly when `i + chunk_size < len(words)` (i.e. more words
remain).  The fuel counts loop iterations; `fuel = words.length` always
suffices since each round consumes ten words. -/
def chunkTextsGo : Nat → List String → List String
  | _, [] => []
  | 0, ws => [joinSpace ws]
  | fuel + 1, ws =>
    if ws.length ≤ 10 then [joinSpace ws]
    else (joinSpace (ws.take 10) ++ " ") :: chunkTextsGo fuel (ws.drop 10)

/-- The list of `chunk_text` values produced by the loop at
`api_server.py` lines 75-80 for a given word list. -/
def chunkTexts (ws : List String) : List String :=
  chunkTextsGo ws.length ws

/-- One element of the `choices` array of a streamed chunk:
`delta` is `{"content": t}` (`some t`) or `{}` (`none`); `finish_reason` is
`null` (`none`) or `"stop"`. -/
structure ChunkChoice where
  index : Nat
  deltaContent : Option String
  finish_reason : Option String
deriving DecidableEq, Repr

/-- The JSON object serialized into one `data:` frame of the stream
(`api_server.py` lines 82-92 and 98-108). -/
structure ChunkData where
  id : String
  object : String
  created : Nat
  model : String
  choices : List ChunkChoice
deriving DecidableEq, Repr

/-- One `yield`ed frame of the streaming generator: a `data: <json>` chunk
frame, the literal `data: [DONE]` sentinel frame, or the error frame
`data: {error: {message, type}}` of the `except` handler. -/
inductive Frame where
  | data (chunk : ChunkData)
  | done
  | error (message : String) (etype : String)
deriving DecidableEq, Repr

/-- A content chunk (`api_server.py` lines 82-92): constant id and created
fields, one choice with `delta = {"content": chunk_text}` and null
finish reason. -/
def contentChunk (model text : String) : ChunkData :=
  ⟨"chatcmpl-ollama", "chat.completion.chunk", 1234567890, model,
    [⟨0, some text, none⟩]⟩

/-- The final chunk (`api_server.py` lines 98-108): empty delta and
`finish_reason = "stop"`. -/
def finalChunk (model : String) : ChunkData :=
  ⟨"chatcmpl-ollama", "chat.completion.chunk", 1234567890, model,
    [⟨0, none, some "stop"⟩]⟩

/-- Prompt assembly (`api_server.py` lines 46-53, repeated verbatim at lines
145-152): the content of the last `role == "user"` message (or `""`), combined
with the system prompt under Python truthiness — `if system and user_message`
is true only when `system` is not `None` AND both strings are non-empty. -/
def assemblePrompt (messages : List Message) (system : Option String) : String :=
  let user_messages := (messages.filter (fun m => m.role == "user")).map (fun m => m.content)
  let user_message := user_messages.getLast?.getD ""
  if system.getD "" ≠ "" ∧ user_message ≠ "" then
    system.getD "" ++ "\n\nUser: " ++ user_message ++ "\n\nAssistant:"
  else if system.getD "" ≠ "" then
    system.getD ""
  else
    user_message

/-- The content frames of a stream: one `data:` frame per chunk text, in
order (`api_server.py` lines 75-95). -/
def contentFrames (model text : String) : List Frame :=
  (chunkTexts (pySplit text)).map (fun t => Frame.data (contentChunk model t))

/-- The frames yielded on the normal path for one canonical text: the content
frames, then the final stop chunk, then the `[DONE]` sentinel
(`api_server.py` lines 75-111). -/
def streamForText (model text : String) : List Frame :=
  contentFrames model text ++ [Frame.data (finalChunk model), Frame.done]

/-- The full frame list yielded by `generate_stream_response`
(`api_server.py` lines 41-120).  `backend` models `client.chat`;
`backend p = .error e` models the call raising an exception with message `e`,
in which case the `except` handler yields the single error frame and the
generator ends. -/
def generate_stream_response (messages : List Message) (system : Option String)
    (model : String) (backend : String → Except String BackendReply) : List Frame :=
  match backend (assemblePrompt messages system) with
  | .error e => [Frame.error e "server_error"]
  | .ok raw => streamForText model (normalizeResponse raw)

/-- The module-level cache (`api_server.py` lines 30-32): the cached client
handle (`none` initially), the model it was built for, and a counter supplying
fresh handle identities so that "a new handle was constructed" is observable. -/
structure CacheState where
  chat_client : Option Nat
  current_model : Option String
  next_handle : Nat
deriving DecidableEq, Repr

/-- `get_chat_client` (`api_server.py` lines 34-39): construct and store a new
client when none is cached or the cached model differs; otherwise return the
cached handle unchanged. -/
def get_chat_client (st : CacheState) (model : String) : Nat × CacheState :=
  if st.chat_client = none ∨ st.current_model ≠ some model then
    (st.next_handle, ⟨some st.next_handle, some model, st.next_handle + 1⟩)
  else
    (st.chat_client.getD 0, st)

/-- The `message` object inside a non-streaming choice. -/
structure ChoiceMessage where
  role : String
  content : String
deriving DecidableEq, Repr

/-- One element of the non-streaming `choices` array
(`api_server.py` lines 175-182). -/
structure Choice where
  index : Nat
  message : ChoiceMessage
  finish_reason : String
deriving DecidableEq, Repr

/-- The `ChatResponse` envelope (`api_server.py` lines 23-28, 171-183). -/
structure ChatResponse where
  id : String
  object : String
  created : Nat
  model : String
  choices : List Choice
deriving DecidableEq, Repr

/-- The non-streaming branch of `chat_completions`
(`api_server.py` lines 139-186): call the backend on the assembled prompt,
normalize, and wrap in a one-choice envelope with `finish_reason = "stop"`;
an exception becomes an HTTP 500 whose detail is the exception message
(modelled as `.error`). -/
def chat_completions_nonstream (messages : List Message) (system : Option String)
    (model : String) (backend : String → Except String BackendReply) :
    Except String ChatResponse :=
  match backend (assemblePrompt messages system) with
  | .error e => .error e
  | .ok raw =>
    .ok ⟨"chatcmpl-ollama", "chat.completion", 1234567890, model,
      [⟨0, ⟨"assistant", normalizeResponse raw⟩, "stop"⟩]⟩

/-- The `deltaContent` carried by a frame, when it is a chunk frame whose
single choice has a present delta (content chunks); `none` for the stop chunk,
the sentinel and error frames. -/
def frameDelta : Frame → Option String
  | .data c =>
    match c.choices with
    | [ch] => ch.deltaContent
    | _ => none
  | _ => none

/-- Concatenation, in order, of all `deltaContent` values of a frame list. -/
def concatDeltas (fs : List Frame) : String :=
  (fs.filterMap frameDelta).foldr (fun a b => a ++ b) ""

/-- The prompt-assembly rule as the claim words it: "a system prompt is
present" read as the optional system prompt being supplied at all, and "a user
message exists" as the message list containing a `role = "user"` entry. -/
def assemblePromptClaim (messages : List Message) (system : Option String) : String :=
  let userText :=
    ((messages.filter (fun m => m.role == "user")).map (fun m => m.content)).getLast?.getD ""
  match system with
  | some s =>
    if messages.any (fun m => m.role == "user") then
      s ++ "\n\nUser: " ++ userText ++ "\n\nAssistant:"
    else s
  | none => userText

/-- The amended prompt-assembly rule: the combined format applies only when
the system prompt is present and non-empty AND the selected user text is
non-empty; a present-and-non-empty system prompt with empty user text is used
verbatim; otherwise the user text is used verbatim. -/
def assemblePromptAmended (messages : List Message) (system : Option String) : String :=
  let userText :=
    ((messages.filter (fun m => m.role == "user")).map (fun m => m.content)).getLast?.getD ""
  match system with
  | some s =>
    if s ≠ "" then
      if userText ≠ "" then s ++ "\n\nUser: " ++ userText ++ "\n\nAssistant:" else s
    else userText
  | none => userText

/-! ### Helper lemmas about joining and chunking -/

theorem joinSpace_append (a b : List String) (ha : a ≠ []) (hb : b ≠ []) :
    joinSpace (a ++ b) = joinSpace a ++ " " ++ joinSpace b := by
  induction a with
  | nil => exact absurd rfl ha
  | cons x a ih =>
    cases a with
    | nil =>
      cases b with
      | nil => exact absurd rfl hb
      | cons y bs => simp [joinSpace]
    | cons z as =>
      have hrec := ih (by simp)
      have h1 : joinSpace (x :: z :: as ++ b) = x ++ " " ++ joinSpace (z :: as ++ b) := rfl
      have h2 : joinSpace (x :: z :: as) = x ++ " " ++ joinSpace (z :: as) := rfl
      rw [h1, h2, hrec]
      simp only [String.append_assoc]

theorem chunkTextsGo_join (fuel : Nat) (ws : List String) (h : ws.length ≤ fuel) :
    (chunkTextsGo fuel ws).foldr (fun a b => a ++ b) "" = joinSpace ws := by
  induction fuel generalizing ws with
  | zero =>
    have hnil : ws = [] := List.eq_nil_of_length_eq_zero (Nat.le_zero.mp h)
    subst hnil; rfl
  | succ fuel ih =>
    cases ws with
    | nil => rfl
    | cons w ws' =>
      rw [chunkTextsGo]
      split
      · simp [List.foldr]
      · rename_i hgt
        push_neg at hgt
        have hlen : ((w :: ws').drop 10).length ≤ fuel := by
          rw [List.length_drop]
          simp only [List.length_cons] at h ⊢
          omega
        have htake : (w :: ws').take 10 ≠ [] := by simp
        have hdrop : (w :: ws').drop 10 ≠ [] := by
          intro hc
          rw [List.drop_eq_nil_iff] at hc
          omega
        simp only [List.foldr_cons]
        rw [ih _ hlen, ← joinSpace_append _ _ htake hdrop, List.take_append_drop]
      · exact fun hc => List.noConfusion hc

theorem chunkTextsGo_length (fuel : Nat) (ws : List String) (h : ws.length ≤ fuel) :
    (chunkTextsGo fuel ws).length = (ws.length + 9) / 10 := by
  induction fuel generalizing ws with
  | zero =>
    have hnil : ws = [] := List.eq_nil_of_length_eq_zero (Nat.le_zero.mp h)
    subst hnil; rfl
  | succ fuel ih =>
    cases ws with
    | nil => rfl
    | cons w ws' =>
      rw [chunkTextsGo]
      split
      · rename_i hle
        simp only [List.length_cons] at hle ⊢
        simp only [List.length_nil]
        omega
      · rename_i hgt
        push_neg at hgt
        have hlen : ((w :: ws').drop 10).length ≤ fuel := by
          rw [List.length_drop]
          simp only [List.length_cons] at h ⊢
          omega
        rw [List.length_cons, ih _ hlen, List.length_drop]
        simp only [List.length_cons]
        omega
      · exact fun hc => List.noConfusion hc

theorem chunkTextsGo_getLast (fuel : Nat) (ws : List String) (h : ws.length ≤ fuel)
    (hne : ws ≠ []) :
    (chunkTextsGo fuel ws).getLast?
      = some (joinSpace (ws.drop (10 * ((ws.length + 9) / 10 - 1)))) := by
  induction fuel generalizing ws with
  | zero =>
    exact absurd (List.eq_nil_of_length_eq_zero (Nat.le_zero.mp h)) hne
  | succ fuel ih =>
    cases ws with
    | nil => exact absurd rfl hne
    | cons w ws' =>
      rw [chunkTextsGo]
      split
      · rename_i hle
        have hz : 10 * (((w :: ws').length + 9) / 10 - 1) = 0 := by
          simp only [List.length_cons] at hle ⊢
          omega
        rw [hz, List.drop_zero]
        rfl
      · rename_i hgt
        push_neg at hgt
        have hlen : ((w :: ws').drop 10).length ≤ fuel := by
          rw [List.length_drop]
          simp only [List.length_cons] at h ⊢
          omega
        have hdrop : (w :: ws').drop 10 ≠ [] := by
          intro hc
          rw [List.drop_eq_nil_iff] at hc
          omega
        have hrec := ih _ hlen hdrop
        have hchne : chunkTextsGo fuel ((w :: ws').drop 10) ≠ [] := by
          intro hc
          rw [hc] at hrec
          exact Option.noConfusion hrec
        obtain ⟨c, cs, hcc⟩ := List.exists_cons_of_ne_nil hchne
        rw [hcc] at hrec
        rw [hcc, List.getLast?_cons_cons, hrec, List.drop_drop]
        have harith : 10 + 10 * ((((w :: ws').drop 10).length + 9) / 10 - 1)
            = 10 * (((w :: ws').length + 9) / 10 - 1) := by
          rw [List.length_drop]
          simp only [List.length_cons] at hgt ⊢
          omega
        rw [harith]
      · exact fun hc => List.noConfusion hc

theorem chunkTexts_join (ws : List String) :
    (chunkTexts ws).foldr (fun a b => a ++ b) "" = joinSpace ws :=
  chunkTextsGo_join ws.length ws (Nat.le_refl _)

theorem concatDeltas_streamForText (model text : String) :
    concatDeltas (streamForText model text) = joinSpace (pySplit text) := by
  unfold concatDeltas streamForText contentFrames
  rw [List.filterMap_append, List.filterMap_map]
  have h1 : ∀ l : List String,
      List.filterMap (frameDelta ∘ fun t => Frame.data (contentChunk model t)) l = l := by
    intro l
    induction l with
    | nil => rfl
    | cons x xs ih => simpa [List.filterMap_cons, Function.comp, frameDelta, contentChunk] using ih
  have h2 : List.filterMap frameDelta [Frame.data (finalChunk model), Frame.done] = [] := rfl
  rw [h1, h2, List.append_nil]
  exact chunkTexts_join (pySplit text)

/-! ### The claims -/

/-- C1 (counterexample): the round-trip law as stated fails — the streamer
splits on whitespace and rejoins with single spaces, so for the canonical text
with two interior spaces the concatenated deltas are not the original text
character for character. -/
theorem c1_roundtrip_counterexample :
    concatDeltas (streamForText "phi4:latest" "a  b") = "a b"
    ∧ concatDeltas (streamForText "phi4:latest" "a  b") ≠ "a  b" := by
  constructor
  · decide
  · decide

/-- C1 (amended): concatenating, in order, all `deltaContent` values of the
emitted content chunks (the stop chunk and sentinel carry no delta) yields the
original CanonicalText's whitespace-split words rejoined with single spaces —
which equals the original text exactly when its words were already separated
by single spaces with no leading or trailing whitespace. -/
theorem c1_roundtrip_amended (model text : String) :
    concatDeltas (streamForText model text) = joinSpace (pySplit text) :=
  concatDeltas_streamForText model text

/-- C2: the normalizer is a total function into strings (so it returns
exactly one string and, being total, never raises), selecting by
first-match-wins order: a plain string unchanged; else a present `content`
attribute's value; else a mapping's value at key `content`; else the textual
representation of the first element of a non-empty sequence; else the textual
representation of the whole value (objects without the attribute, mappings
without the key, empty sequences, null, numbers). -/
theorem c2_normalizer_cases :
    (∀ s, normalizeResponse (BackendReply.pstr s) = s)
    ∧ (∀ c r, normalizeResponse (BackendReply.pobj (some c) r) = c)
    ∧ (∀ es, normalizeResponse (BackendReply.pdict es)
        = match es.lookup "content" with
          | some v => v
          | none => pyStr (BackendReply.pdict es))
    ∧ (∀ x xs, normalizeResponse (BackendReply.plist (x :: xs)) = pyStr x)
    ∧ (∀ r, normalizeResponse (BackendReply.pobj none r) = pyStr (BackendReply.pobj none r))
    ∧ normalizeResponse (BackendReply.plist []) = pyStr (BackendReply.plist [])
    ∧ normalizeResponse BackendReply.pnone = pyStr BackendReply.pnone
    ∧ (∀ n, normalizeResponse (BackendReply.pint n) = pyStr (BackendReply.pint n)) :=
  ⟨fun _ => rfl, fun _ _ => rfl, fun _ => rfl, fun _ _ => rfl,
    fun _ => rfl, rfl, rfl, fun _ => rfl⟩

/-- C3: for `n` whitespace-split words the streamer emits exactly
`ceil(n/10) = (n+9)/10` content chunks in order; when words exist, the last
chunk is the single-space join of the final word group, whose size is
`n mod 10` (or 10 when `n` is a positive multiple of 10); and the 3-word input
`"alpha beta gamma"` yields exactly one content chunk whose delta is
`"alpha beta gamma"`. -/
theorem c3_chunk_counts (text model : String) :
    (chunkTexts (pySplit text)).length = ((pySplit text).length + 9) / 10
    ∧ (pySplit text ≠ [] →
        (chunkTexts (pySplit text)).getLast?
          = some (joinSpace
              ((pySplit text).drop (10 * (((pySplit text).length + 9) / 10 - 1))))
        ∧ ((pySplit text).drop (10 * (((pySplit text).length + 9) / 10 - 1))).length
          = if (pySplit text).length % 10 = 0 then 10 else (pySplit text).length % 10)
    ∧ contentFrames model "alpha beta gamma"
        = [Frame.data (contentChunk model "alpha beta gamma")] := by
  refine ⟨chunkTextsGo_length _ _ (Nat.le_refl _), fun hne => ⟨?_, ?_⟩, ?_⟩
  · exact chunkTextsGo_getLast _ _ (Nat.le_refl _) hne
  · have hpos : 0 < (pySplit text).length := List.length_pos.mpr hne
    rw [List.length_drop]
    rcases Nat.eq_zero_or_pos ((pySplit text).length % 10) with hz | hp
    · rw [if_pos hz]
      omega
    · rw [if_neg (by omega)]
      omega
  · rw [contentFrames,
      show chunkTexts (pySplit "alpha beta gamma") = ["alpha beta gamma"] from by decide]
    rfl

/-- C3 witness: the general parts of `c3_chunk_counts` instantiated at the
one-word text `"a"`, with the non-emptiness hypothesis discharged. -/
theorem c3_chunk_counts_witness :
    (chunkTexts (pySplit "a")).getLast?
      = some (joinSpace ((pySplit "a").drop (10 * (((pySplit "a").length + 9) / 10 - 1))))
    ∧ ((pySplit "a").drop (10 * (((pySplit "a").length + 9) / 10 - 1))).length
      = if (pySplit "a").length % 10 = 0 then 10 else (pySplit "a").length % 10 :=
  (c3_chunk_counts "a" "phi4:latest").2.1 (by decide)

/-- C4: on the normal (non-error) path every stream is a list of content
chunk frames followed by exactly one `finishReason = stop` chunk with absent
delta and then exactly one `[DONE]` sentinel, with nothing after; empty
CanonicalText yields zero content chunks but still the terminal pair. -/
theorem c4_stream_termination (messages : List Message) (system : Option String)
    (model : String) (backend : String → Except String BackendReply)
    (reply : BackendReply)
    (h : backend (assemblePrompt messages system) = .ok reply) :
    (∃ deltas : List String,
      generate_stream_response messages system model backend
        = deltas.map (fun t => Frame.data (contentChunk model t))
          ++ [Frame.data (finalChunk model), Frame.done])
    ∧ (finalChunk model).choices = [⟨0, none, some "stop"⟩]
    ∧ (normalizeResponse reply = "" →
        generate_stream_response messages system model backend
          = [Frame.data (finalChunk model), Frame.done]) := by
  unfold generate_stream_response
  rw [h]
  refine ⟨⟨chunkTexts (pySplit (normalizeResponse reply)), rfl⟩, rfl, fun he => ?_⟩
  show streamForText model (normalizeResponse reply)
    = [Frame.data (finalChunk model), Frame.done]
  rw [he]
  rfl

/-- C4 witness: with a backend replying the empty string, the stream is
exactly the stop chunk followed by the sentinel. -/
theorem c4_stream_termination_witness :
    (finalChunk "phi4:latest").choices = [⟨0, none, some "stop"⟩]
    ∧ generate_stream_response [] none "phi4:latest" (fun _ => .ok (.pstr ""))
        = [Frame.data (finalChunk "phi4:latest"), Frame.done] := by
  have h := c4_stream_termination [] none "phi4:latest"
    (fun _ => .ok (.pstr "")) (.pstr "") rfl
  exact ⟨h.2.1, h.2.2 rfl⟩

/-- C5: when the backend call raises, the stream is exactly one error frame
`{error: {message, type: "server_error"}}` carrying the exception message —
no content chunks, no stop chunk and no sentinel follow it. -/
theorem c5_error_frame (messages : List Message) (system : Option String)
    (model : String) (backend : String → Except String BackendReply) (msg : String)
    (h : backend (assemblePrompt messages system) = .error msg) :
    generate_stream_response messages system model backend
      = [Frame.error msg "server_error"] := by
  unfold generate_stream_response
  rw [h]

/-- C5 witness: a backend raising with message `"boom"` produces exactly the
single error frame. -/
theorem c5_error_frame_witness :
    generate_stream_response [] none "phi4:latest" (fun _ => .error "boom")
      = [Frame.error "boom" "server_error"] :=
  c5_error_frame [] none "phi4:latest" (fun _ => .error "boom") "boom" rfl

/-- C6 (counterexample): the claim reads "a system prompt is present", but
the code tests Python truthiness: with the empty-string system prompt
`some ""` and user message `"hi"`, the claim's rule produces the combined
format while the code uses the user text verbatim. -/
theorem c6_prompt_counterexample :
    assemblePrompt [⟨"user", "hi"⟩] (some "") = "hi"
    ∧ assemblePromptClaim [⟨"user", "hi"⟩] (some "") = "\n\nUser: hi\n\nAssistant:"
    ∧ assemblePrompt [⟨"user", "hi"⟩] (some "")
        ≠ assemblePromptClaim [⟨"user", "hi"⟩] (some "") := by
  refine ⟨by decide, by decide, by decide⟩

/-- C6 (amended): the prompt is the content of the last `role = "user"`
message (empty if none); the combined `"{system}\n\nUser: {user}\n\nAssistant:"`
format applies when the system prompt is present and non-empty and the user
text is non-empty; a present non-empty system prompt alone is used verbatim;
otherwise the user text is used verbatim. -/
theorem c6_prompt_amended (messages : List Message) (system : Option String) :
    assemblePrompt messages system = assemblePromptAmended messages system := by
  unfold assemblePrompt assemblePromptAmended
  cases system with
  | none => simp
  | some s =>
    by_cases hs : s = ""
    · subst hs
      simp
    · simp only [Option.getD_some]
      by_cases hu : ((messages.filter (fun m => m.role == "user")).map
          (fun m => m.content)).getLast?.getD "" = ""
      · rw [if_neg (fun hcon => hcon.2 hu), if_pos hs, if_pos hs,
          if_neg (fun hcon => hcon hu)]
      · rw [if_pos ⟨hs, hu⟩, if_pos hs, if_pos hu]

/-- C7: the normalizer applied to the empty ordered sequence falls through to
the generic textual-representation fallback and returns `"[]"` — it never
indexes the sequence (it is a total function, defined on `plist []`). -/
theorem c7_empty_sequence :
    normalizeResponse (BackendReply.plist []) = pyStr (BackendReply.plist [])
    ∧ pyStr (BackendReply.plist []) = "[]" :=
  ⟨rfl, rfl⟩

/-- C8: acquiring a client twice with the same model name constructs a handle
at most on the first call — after the first call the cache stores the returned
handle and the requested model name, and the second call returns the same
handle with the state (in particular the fresh-handle counter) unchanged. -/
theorem c8_cache_idempotent (st : CacheState) (m : String) :
    (get_chat_client st m).2.current_model = some m
    ∧ (get_chat_client st m).2.chat_client = some (get_chat_client st m).1
    ∧ get_chat_client (get_chat_client st m).2 m = get_chat_client st m := by
  by_cases h : st.chat_client = none ∨ st.current_model ≠ some m
  · have hfst : get_chat_client st m
        = (st.next_handle, ⟨some st.next_handle, some m, st.next_handle + 1⟩) := by
      unfold get_chat_client
      rw [if_pos h]
    have hsnd : get_chat_client (⟨some st.next_handle, some m,
        st.next_handle + 1⟩ : CacheState) m
        = (st.next_handle, ⟨some st.next_handle, some m, st.next_handle + 1⟩) := by
      unfold get_chat_client
      rw [if_neg (by push_neg; exact ⟨Option.some_ne_none _, rfl⟩)]
      rfl
    rw [hfst]
    exact ⟨rfl, rfl, hsnd⟩
  · push_neg at h
    obtain ⟨h1, h2⟩ := h
    cases hc : st.chat_client with
    | none => exact absurd hc h1
    | some c =>
      have hcall : get_chat_client st m = (c, st) := by
        unfold get_chat_client
        rw [if_neg (by push_neg; exact ⟨h1, h2⟩), hc]
        rfl
      rw [hcall]
      exact ⟨h2, hc, hcall⟩

/-- C9: with `stream = false` and a non-raising backend, the endpoint returns
one envelope with exactly one choice, `finish_reason = "stop"`, and message
content equal to the normalizer's output on the backend reply to the
assembled prompt; for `messages = [{role: user, content: "Hello"}]` and no
system prompt, that prompt is `"Hello"`. -/
theorem c9_nonstreaming (messages : List Message) (system : Option String)
    (model : String) (backend : String → Except String BackendReply)
    (raw : BackendReply)
    (h : backend (assemblePrompt messages system) = .ok raw) :
    chat_completions_nonstream messages system model backend
      = .ok ⟨"chatcmpl-ollama", "chat.completion", 1234567890, model,
          [⟨0, ⟨"assistant", normalizeResponse raw⟩, "stop"⟩]⟩
    ∧ assemblePrompt [⟨"user", "Hello"⟩] none = "Hello" := by
  refine ⟨?_, by decide⟩
  unfold chat_completions_nonstream
  rw [h]

/-- C9 witness: a concrete non-streaming request with a string backend reply
produces the single-choice stop envelope. -/
theorem c9_nonstreaming_witness :
    chat_completions_nonstream [⟨"user", "Hello"⟩] none "phi4:latest"
        (fun _ => .ok (.pstr "ok"))
      = .ok ⟨"chatcmpl-ollama", "chat.completion", 1234567890, "phi4:latest",
          [⟨0, ⟨"assistant", "ok"⟩, "stop"⟩]⟩ :=
  (c9_nonstreaming [⟨"user", "Hello"⟩] none "phi4:latest"
    (fun _ => .ok (.pstr "ok")) (.pstr "ok") rfl).1

/-- C10: every chunk frame of every stream and every non-streaming envelope
carries the constant framing fields `id = "chatcmpl-ollama"` and
`created = 1234567890` — the creation timestamp is a fixed literal. -/
theorem c10_constant_framing (messages : List Message) (system : Option String)
    (model : String) (backend : String → Except String BackendReply) :
    (∀ c : ChunkData,
      Frame.data c ∈ generate_stream_response messages system model backend →
        c.id = "chatcmpl-ollama" ∧ c.created = 1234567890)
    ∧ (∀ env : ChatResponse,
        chat_completions_nonstream messages system model backend = .ok env →
          env.id = "chatcmpl-ollama" ∧ env.created = 1234567890) := by
  constructor
  · intro c hc
    unfold generate_stream_response at hc
    cases hb : backend (assemblePrompt messages system) with
    | error e =>
      rw [hb] at hc
      simp at hc
    | ok raw =>
      rw [hb] at hc
      unfold streamForText contentFrames at hc
      rw [List.mem_append] at hc
      cases hc with
      | inl hmem =>
        obtain ⟨t, _, ht⟩ := List.mem_map.mp hmem
        cases ht
        exact ⟨rfl, rfl⟩
      | inr hmem =>
        simp only [List.mem_cons, List.mem_singleton] at hmem
        cases hmem with
        | inl hd =>
          cases hd
          exact ⟨rfl, rfl⟩
        | inr hd =>
          cases hd with
          | inl hd' => exact absurd hd' (by simp)
          | inr hd' => exact absurd hd' (by simp)
  · intro env henv
    unfold chat_completions_nonstream at henv
    cases hb : backend (assemblePrompt messages system) with
    | error e =>
      rw [hb] at henv
      exact Except.noConfusion henv
    | ok raw =>
      rw [hb] at henv
      cases henv
      exact ⟨rfl, rfl⟩

/-- C10 witness: a concrete content chunk of a concrete stream carries the
constant id and created fields. -/
theorem c10_constant_framing_witness :
    (contentChunk "phi4:latest" "hi").id = "chatcmpl-ollama"
    ∧ (contentChunk "phi4:latest" "hi").created = 1234567890 :=
  (c10_constant_framing [] none "phi4:latest" (fun _ => .ok (.pstr "hi"))).1
    (contentChunk "phi4:latest" "hi") (by decide)

end ApiServer
